import Mathlib

/-
Verification of the notesAppBackend replicated-store and sync core.

The embedding below is a shallow model of the JavaScript backend:

  * routes/sync.js            — push/pull sync protocol (normalizeNoteInput,
                                the POST /sync/push loop, GET /sync/pull);
  * adapters/sqliteAdapter.js — the primary store: a notes table keyed by id,
                                modelled as a list of rows (get, upsert, find);
  * adapters/fileAdapter.js   — the file mirror: one JSON file per note id,
                                modelled as a list keyed by id; its upsert
                                catches every write error internally;
  * adapters/dualAdapter.js   — fan-out upsert, filter matching
                                (matchesFilters) and the merge performed by
                                find over local and remote result sets.

Conventions of the embedding:

  * JS numbers used as timestamps are modelled as Int; JS string values as
    String; nullable fields as Option.
  * JS truthiness tests on possibly-absent strings and numbers are modelled
    by strTruthy and intTruthy (absent, the empty string and 0 are falsy).
  * nanoid() and Date.now() are passed in as explicit arguments (fresh, now).
  * The authenticated caller is the value of req.user.uid placed by the auth
    middleware; the optional chain user?.uid of normalizeNoteInput is
    modelled by the argument userUid : Option String.
  * Push and pull are modelled against the local configuration in which
    getFirestoreSafe() returns null: dualAdapter.get and dualAdapter.find
    then reduce to the SQLite adapter, and the file mirror is never read by
    get or find, so the server state visible to the sync routes is the
    SQLite row list.  The Firestore-present paths that the claims mention
    (the fan-out upsert and the find merge) are modelled separately
    (dualUpsert, mergeNotes, dualFindMerge).
  * I/O failure of a backend write is modelled by explicit Boolean outcome
    flags (dbOk, fsOk, remoteOk): the JS promise rejection of a SQLite
    statement corresponds to the flag being false.
-/

/-- A stored note record, as produced by normalizeNoteInput and persisted by
every adapter (SQLite row, JSON file, Firestore document). -/
structure Note where
  id : String
  uid : Option String
  title : String
  body : String
  createdAt : Int
  updatedAt : Int
  date : Option Int
  time : Option String
  tags : List String
  isDeleted : Bool
  deriving Repr, DecidableEq

/-- The shape of the client-supplied tags field accepted by
normalizeNoteInput: a JSON array, any other value coerced through String
(modelled by its string form), or absent/null. -/
inductive TagsInput where
  | arr (tags : List String)
  | str (s : String)
  | absent
  deriving Repr, DecidableEq

/-- A raw client note body as received by POST /sync/push, before
normalization; every field may be absent. -/
structure RawNote where
  id : Option String
  uid : Option String
  title : Option String
  body : Option String
  createdAt : Option Int
  updatedAt : Option Int
  date : Option Int
  time : Option String
  tags : TagsInput
  isDeleted : Bool
  deriving Repr, DecidableEq

/-- JS truthiness of a possibly-absent string: null/undefined and the empty
string are falsy. -/
def strTruthy : Option String → Bool
  | none => false
  | some s => s ≠ ""

/-- JS truthiness of a possibly-absent number: null/undefined and 0 are
falsy. -/
def intTruthy : Option Int → Bool
  | none => false
  | some v => v ≠ 0

/-- Does the character list needle occur at the head of hay. -/
def leadMatch : List Char → List Char → Bool
  | [], _ => true
  | _ :: _, [] => false
  | a :: as, b :: bs => a = b && leadMatch as bs

/-- Does the character list needle occur anywhere in hay
(String.prototype.includes / SQL LIKE with surrounding wildcards). -/
def subMatch (needle : List Char) : List Char → Bool
  | [] => leadMatch needle []
  | b :: bs => leadMatch needle (b :: bs) || subMatch needle bs

/-- hay.includes(needle) on strings. -/
def strIncludes (hay needle : String) : Bool :=
  subMatch needle.toList hay.toList

/-- The tags coercion of normalizeNoteInput (routes/sync.js): an array is
kept; a truthy non-array value is stringified, split on commas, trimmed and
stripped of empty entries; anything falsy becomes the empty list. -/
def normTags : TagsInput → List String
  | .arr l => l
  | .str s =>
      if s = "" then []
      else ((s.splitOn ",").map (fun t => t.trim)).filter (fun t => t ≠ "")
  | .absent => []

/-- normalizeNoteInput of routes/sync.js: fills every defaulted field.
userUid is the value of the optional chain user?.uid, fresh the nanoid()
candidate, now the Date.now() value. -/
def normalizeNoteInput (body : RawNote) (userUid : Option String)
    (fresh : String) (now : Int) : Note :=
  { id := body.id.getD fresh
    uid := userUid <|> body.uid
    title := body.title.getD ""
    body := body.body.getD ""
    createdAt := body.createdAt.getD now
    updatedAt := body.updatedAt.getD now
    date := body.date
    time := body.time
    tags := normTags body.tags
    isDeleted := body.isDeleted }

/-- Lookup by id in a list of records: the shared reading discipline of all
three tiers (SQLite row by primary key, JSON file by name, Firestore
document by id). -/
def getById : List Note → String → Option Note
  | [], _ => none
  | m :: ms, i => if m.id = i then some m else getById ms i

/-- Replace every record whose id matches (UPDATE ... WHERE id = ?,
overwriting a JSON file, set on an existing document). -/
def replaceById : List Note → Note → List Note
  | [], _ => []
  | m :: ms, n => (if m.id = n.id then n else m) :: replaceById ms n

/-- sqliteAdapter.get: SELECT * FROM notes WHERE id = ?. -/
def sqliteGet (db : List Note) (i : String) : Option Note :=
  getById db i

/-- sqliteAdapter.upsert: read the existing row; UPDATE it in place when
present, INSERT (append) otherwise. -/
def sqliteUpsert (db : List Note) (n : Note) : List Note :=
  if (sqliteGet db n.id).isSome then replaceById db n
  else db ++ [n]

/-- fileAdapter: the notes_files directory as a list of records keyed by id;
writeFile overwrites the file for that id or creates it. -/
def fileWrite (files : List Note) (n : Note) : List Note :=
  if (getById files n.id).isSome then replaceById files n
  else files ++ [n]

/-- fileAdapter.upsert: the write is wrapped in try/catch, the error is only
logged, so the operation always returns normally; on an I/O failure
(fsOk = false) the directory is simply left unchanged. -/
def fileUpsert (fsOk : Bool) (files : List Note) (n : Note) : List Note :=
  if fsOk then fileWrite files n else files

/-- Firestore collection(notes).doc(n.id).set(n, merge): replace the
document for that id or create it. -/
def remoteSet (r : List Note) (n : Note) : List Note :=
  if (getById r n.id).isSome then replaceById r n
  else r ++ [n]

/-- The three storage tiers held by dualAdapter: the SQLite rows, the file
mirror, and the Firestore collection (none when getFirestoreSafe() returns
null). -/
structure DualSt where
  db : List Note
  files : List Note
  remote : Option (List Note)
  deriving Repr, DecidableEq

/-- dualAdapter.upsert: Promise.all over the SQLite and file writes, then a
best-effort Firestore write.  The Boolean result is whether the returned
promise resolves (true) or rejects (false): the SQLite statement rethrows on
failure, the file adapter swallows its own failure, and the Firestore write
is wrapped in its own try/catch.  dbOk / fsOk / remoteOk say whether the
underlying I/O of each tier succeeds. -/
def dualUpsert (dbOk fsOk remoteOk : Bool) (st : DualSt) (n : Note) :
    Bool × DualSt :=
  let files2 := fileUpsert fsOk st.files n
  if dbOk then
    let db2 := sqliteUpsert st.db n
    match st.remote with
    | none => (true, ⟨db2, files2, none⟩)
    | some r =>
        if remoteOk then (true, ⟨db2, files2, some (remoteSet r n)⟩)
        else (true, ⟨db2, files2, some r⟩)
  else
    (false, { st with files := files2 })

/-- The status tags returned by POST /sync/push for a single note. -/
inductive PushStatus where
  | created
  | updated
  | skipped_server_newer
  | forbidden_owner_mismatch
  deriving Repr, DecidableEq

/-- One entry of the results array of the push response. -/
structure PushResult where
  id : String
  status : PushStatus
  deriving Repr, DecidableEq

/-- The body of one iteration of the push loop of routes/sync.js, against the
local server state (the SQLite rows; dualAdapter.get reads SQLite first and
dualAdapter.find never reads the file mirror, so with Firestore absent the
row list is the whole observable server state).  caller is req.user.uid. -/
def pushOne (caller : String) (now : Int) (db : List Note) (raw : RawNote)
    (fresh : String) : List Note × PushResult :=
  let note := normalizeNoteInput raw (some caller) fresh now
  match sqliteGet db note.id with
  | none => (sqliteUpsert db note, ⟨note.id, PushStatus.created⟩)
  | some existing =>
      if existing.uid ≠ some caller then
        (db, ⟨note.id, PushStatus.forbidden_owner_mismatch⟩)
      else if existing.updatedAt < note.updatedAt then
        (sqliteUpsert db note, ⟨note.id, PushStatus.updated⟩)
      else
        (db, ⟨note.id, PushStatus.skipped_server_newer⟩)

/-- The push loop over a batch, threading the store state and collecting one
result per note in submission order; k indexes the nanoid() supply. -/
def pushBatchAux (caller : String) (now : Int) (fresh : Nat → String) :
    List RawNote → Nat → List Note → List Note × List PushResult
  | [], _, db => (db, [])
  | raw :: rest, k, db =>
      let step := pushOne caller now db raw (fresh k)
      let tail := pushBatchAux caller now fresh rest (k + 1) step.1
      (tail.1, step.2 :: tail.2)

/-- The push loop started at the head of the nanoid() supply. -/
def pushBatch (caller : String) (now : Int) (fresh : Nat → String)
    (raws : List RawNote) (db : List Note) : List Note × List PushResult :=
  pushBatchAux caller now fresh raws 0 db

/-- The notes field of a push request body: a JSON array, a present value
that is not an array, or absent. -/
inductive NotesField where
  | list (notes : List RawNote)
  | nonArray
  | absent
  deriving Repr

/-- Array.isArray(req.body.notes) ? req.body.notes : [] -/
def extractNotes : NotesField → List RawNote
  | .list l => l
  | .nonArray => []
  | .absent => []

/-- The JSON body answered by POST /sync/push on the non-throwing path. -/
structure PushResponse where
  ok : Bool
  results : List PushResult
  deriving Repr, DecidableEq

/-- The POST /sync/push handler on the path where no storage operation
throws: extract the notes array (anything else counts as an empty batch),
run the loop, answer ok with the collected results. -/
def pushRoute (caller : String) (now : Int) (fresh : Nat → String)
    (body : NotesField) (db : List Note) : List Note × PushResponse :=
  let out := pushBatch caller now fresh (extractNotes body) db
  (out.1, { ok := true, results := out.2 })

/-- The push loop with storage failure modelled: each note carries a flag
saying whether a durable-store operation (adapter.get or adapter.upsert)
throws while that note is processed.  The single try/catch of the route
turns the first such throw into a 500 server_error response, discarding the
per-note results collected so far. -/
def pushBatchE (caller : String) (now : Int) (fresh : Nat → String) :
    List (RawNote × Bool) → Nat → List Note →
    Except String (List Note × List PushResult)
  | [], _, db => .ok (db, [])
  | (raw, bad) :: rest, k, db =>
      if bad then .error "server_error"
      else
        let step := pushOne caller now db raw (fresh k)
        match pushBatchE caller now fresh rest (k + 1) step.1 with
        | .error e => .error e
        | .ok (db3, rs) => .ok (db3, step.2 :: rs)

/-- The filters object built by the routes and consumed by both
sqliteAdapter.find and matchesFilters. -/
structure Filters where
  includeDeleted : Bool
  uid : Option String
  q : Option String
  updatedAfter : Option Int
  dateFrom : Option Int
  dateTo : Option Int
  time : Option String
  tags : Option (List String)
  deriving Repr, DecidableEq

/-- matchesFilters line: filters.uid && note.uid !== filters.uid. -/
def uidReject (note : Note) : Option String → Bool
  | none => false
  | some u => decide (u ≠ "") && decide (note.uid ≠ some u)

/-- matchesFilters lines: if (filters.q) reject unless the lowercased query
is a substring of the lowercased title or body. -/
def qReject (note : Note) : Option String → Bool
  | none => false
  | some s =>
      decide (s ≠ "") &&
        !(strIncludes note.title.toLower s.toLower ||
          strIncludes note.body.toLower s.toLower)

/-- matchesFilters line: filters.updatedAfter && note.updatedAt <= it. -/
def updatedAfterReject (note : Note) : Option Int → Bool
  | none => false
  | some v => decide (v ≠ 0) && decide (note.updatedAt ≤ v)

/-- matchesFilters line: filters.dateFrom && !(note.date && note.date >=
it); note.date is itself tested for truthiness, so a 0 date fails. -/
def dateFromReject (note : Note) : Option Int → Bool
  | none => false
  | some v =>
      decide (v ≠ 0) &&
        !(match note.date with
          | some d => decide (d ≠ 0) && decide (v ≤ d)
          | none => false)

/-- matchesFilters line: filters.dateTo && !(note.date && note.date <= it). -/
def dateToReject (note : Note) : Option Int → Bool
  | none => false
  | some v =>
      decide (v ≠ 0) &&
        !(match note.date with
          | some d => decide (d ≠ 0) && decide (d ≤ v)
          | none => false)

/-- matchesFilters line: filters.time && note.time !== filters.time. -/
def timeReject (note : Note) : Option String → Bool
  | none => false
  | some t => decide (t ≠ "") && decide (note.time ≠ some t)

/-- matchesFilters lines: with a nonempty tags array, reject unless the note
contains every requested tag. -/
def tagsReject (note : Note) : Option (List String) → Bool
  | none => false
  | some l => decide (l ≠ []) && !(l.all (fun t => decide (t ∈ note.tags)))

/-- dualAdapter.matchesFilters: the sequence of early return false tests; a
note matches when no test rejects it. -/
def matchesFilters (note : Note) (f : Filters) : Bool :=
  !(!f.includeDeleted && note.isDeleted) &&
  !uidReject note f.uid &&
  !qReject note f.q &&
  !updatedAfterReject note f.updatedAfter &&
  !dateFromReject note f.dateFrom &&
  !dateToReject note f.dateTo &&
  !timeReject note f.time &&
  !tagsReject note f.tags

/-- Insert a note into a list already sorted by updatedAt descending,
placing it after every earlier element whose updatedAt is at least as
large: together with sortByUpdatedDesc this models the stable JS
Array.prototype.sort under the comparator (b.updatedAt - a.updatedAt), and
the SQL ORDER BY updatedAt DESC of sqliteAdapter.find. -/
def insertByUpdated (n : Note) : List Note → List Note
  | [] => [n]
  | m :: ms =>
      if m.updatedAt ≤ n.updatedAt then n :: m :: ms
      else m :: insertByUpdated n ms

/-- Stable sort by updatedAt descending. -/
def sortByUpdatedDesc : List Note → List Note
  | [] => []
  | n :: ns => insertByUpdated n (sortByUpdatedDesc ns)

/-- JSON.stringify of a tags array as stored in the SQLite tags column
(string escaping elided: tags are plain short strings). -/
def tagsJson (tags : List String) : String :=
  "[" ++ String.intercalate "," (tags.map (fun t => "\"" ++ t ++ "\"")) ++ "]"

/-- The WHERE clause assembled by sqliteAdapter.find, evaluated on one row.
Each conjunct is added only when the corresponding filter field is truthy;
SQL comparisons against a NULL column are false; LIKE is modelled as
(case-insensitive) substring containment. -/
def sqlWhere (n : Note) (f : Filters) : Bool :=
  (match f.uid with
   | none => true
   | some u => if u = "" then true else decide (n.uid = some u)) &&
  (if f.includeDeleted then true else !n.isDeleted) &&
  (match f.q with
   | none => true
   | some s =>
       if s = "" then true
       else strIncludes n.title.toLower s.toLower ||
            strIncludes n.body.toLower s.toLower) &&
  (match f.updatedAfter with
   | none => true
   | some v => if v = 0 then true else decide (v < n.updatedAt)) &&
  (match f.dateFrom with
   | none => true
   | some v =>
       if v = 0 then true
       else match n.date with
            | some d => decide (v ≤ d)
            | none => false) &&
  (match f.dateTo with
   | none => true
   | some v =>
       if v = 0 then true
       else match n.date with
            | some d => decide (d ≤ v)
            | none => false) &&
  (match f.time with
   | none => true
   | some t => if t = "" then true else decide (n.time = some t)) &&
  (match f.tags with
   | none => true
   | some l =>
       if l.isEmpty then true
       else l.all (fun t =>
         strIncludes (tagsJson n.tags).toLower ("\"" ++ t ++ "\"").toLower))

/-- sqliteAdapter.find: SELECT * FROM notes WHERE ... ORDER BY updatedAt
DESC. -/
def sqliteFind (db : List Note) (f : Filters) : List Note :=
  sortByUpdatedDesc (db.filter (fun n => sqlWhere n f))

/-- The filters object built by GET /sync/pull: updatedAfter = lastSync,
includeDeleted unconditionally true, uid = the caller. -/
def pullFilters (caller : String) (lastSync : Int) : Filters :=
  { includeDeleted := true
    uid := some caller
    q := none
    updatedAfter := some lastSync
    dateFrom := none
    dateTo := none
    time := none
    tags := none }

/-- GET /sync/pull in the local configuration: adapter.find with the pull
filters over the SQLite rows (lastSync defaults to 0 when the query
parameter is absent or falsy). -/
def pullNotes (caller : String) (lastSync : Int) (db : List Note) :
    List Note :=
  sqliteFind db (pullFilters caller lastSync)

/-- The merge of dualAdapter.find before sorting: keep every local note,
then append each remote note whose id does not occur locally (remote
records never replace a local record with the same id). -/
def mergeNotes (localNotes remoteNotes : List Note) : List Note :=
  let localIds := localNotes.map (fun n => n.id)
  localNotes ++ remoteNotes.filter (fun rn => decide (rn.id ∉ localIds))

/-- The merged, sorted result list returned by dualAdapter.find when
Firestore is reachable, as a function of the local result set and the
already-filtered remote result set. -/
def dualFindMerge (localNotes remoteFiltered : List Note) : List Note :=
  sortByUpdatedDesc (mergeNotes localNotes remoteFiltered)

/-- dualAdapter.find with Firestore reachable: the remote documents are
filtered through matchesFilters and merged with the local result set. -/
def dualFind (f : Filters) (localNotes remoteAll : List Note) : List Note :=
  dualFindMerge localNotes (remoteAll.filter (fun n => matchesFilters n f))

/-! ### Store lemmas: lookup against replace and append -/

theorem getById_eq_none_iff (db : List Note) (i : String) :
    getById db i = none ↔ ∀ m ∈ db, m.id ≠ i := by
  induction db with
  | nil => simp [getById]
  | cons m ms ih =>
    by_cases hm : m.id = i
    · simp [getById, hm]
    · simp [getById, hm, ih]

theorem getById_mem (db : List Note) (i : String) (m : Note)
    (h : getById db i = some m) : m ∈ db ∧ m.id = i := by
  induction db with
  | nil => simp [getById] at h
  | cons x xs ih =>
    by_cases hx : x.id = i
    · simp [getById, hx] at h
      subst h
      exact ⟨List.mem_cons_self x xs, hx⟩
    · simp [getById, hx] at h
      rcases ih h with ⟨h1, h2⟩
      exact ⟨List.mem_cons_of_mem x h1, h2⟩

theorem getById_replace_self (db : List Note) (n : Note) :
    getById (replaceById db n) n.id =
      if (getById db n.id).isSome then some n else none := by
  induction db with
  | nil => simp [getById, replaceById]
  | cons m ms ih =>
    by_cases hm : m.id = n.id
    · simp [getById, replaceById, hm]
    · simp [getById, replaceById, hm, ih]

theorem getById_replace_ne (db : List Note) (n : Note) (j : String)
    (h : j ≠ n.id) : getById (replaceById db n) j = getById db j := by
  induction db with
  | nil => simp [replaceById]
  | cons m ms ih =>
    by_cases hm : m.id = n.id
    · have h1 : ¬n.id = j := fun hc => h hc.symm
      have h2 : ¬m.id = j := by rw [hm]; exact h1
      simp [getById, replaceById, hm, h1, h2, ih]
    · simp only [replaceById, if_neg hm]
      by_cases hj : m.id = j
      · simp [getById, hj]
      · simp [getById, hj, ih]

theorem getById_append_of_none (l1 l2 : List Note) (i : String)
    (h : getById l1 i = none) : getById (l1 ++ l2) i = getById l2 i := by
  induction l1 with
  | nil => simp [getById]
  | cons m ms ih =>
    by_cases hm : m.id = i
    · simp [getById, hm] at h
    · simp [getById, hm] at h ⊢
      exact ih h

theorem getById_append_single_ne (db : List Note) (n : Note) (j : String)
    (h : j ≠ n.id) : getById (db ++ [n]) j = getById db j := by
  induction db with
  | nil =>
    have h1 : ¬n.id = j := fun hc => h hc.symm
    simp [getById, h1]
  | cons m ms ih =>
    by_cases hm : m.id = j
    · simp [getById, hm]
    · simp [getById, hm, ih]

theorem sqliteGet_upsert_self (db : List Note) (n : Note) :
    sqliteGet (sqliteUpsert db n) n.id = some n := by
  unfold sqliteUpsert
  by_cases h : (sqliteGet db n.id).isSome
  · simp only [h, if_true]
    unfold sqliteGet at h ⊢
    rw [getById_replace_self, if_pos h]
  · simp only [h, Bool.false_eq_true, if_false]
    unfold sqliteGet at h ⊢
    rw [getById_append_of_none db [n] n.id (Option.not_isSome_iff_eq_none.mp h)]
    simp [getById]

theorem sqliteGet_upsert_ne (db : List Note) (n : Note) (j : String)
    (h : j ≠ n.id) : sqliteGet (sqliteUpsert db n) j = sqliteGet db j := by
  unfold sqliteUpsert sqliteGet
  by_cases hs : (getById db n.id).isSome
  · simp only [sqliteGet, hs, if_true]
    exact getById_replace_ne db n j h
  · simp only [sqliteGet, hs, Bool.false_eq_true, if_false]
    exact getById_append_single_ne db n j h

/-! ### Sort lemmas: permutation, sortedness, stability -/

theorem insertByUpdated_perm (n : Note) (l : List Note) :
    (insertByUpdated n l).Perm (n :: l) := by
  induction l with
  | nil => simp [insertByUpdated]
  | cons m ms ih =>
    by_cases h : m.updatedAt ≤ n.updatedAt
    · simp [insertByUpdated, h]
    · simp only [insertByUpdated, if_neg h]
      exact (ih.cons m).trans (List.Perm.swap n m ms)

theorem sortByUpdatedDesc_perm (l : List Note) :
    (sortByUpdatedDesc l).Perm l := by
  induction l with
  | nil => simp [sortByUpdatedDesc]
  | cons n ns ih =>
    exact (insertByUpdated_perm n (sortByUpdatedDesc ns)).trans (ih.cons n)

theorem mem_sortByUpdatedDesc (a : Note) (l : List Note) :
    a ∈ sortByUpdatedDesc l ↔ a ∈ l :=
  (sortByUpdatedDesc_perm l).mem_iff

theorem insertByUpdated_pairwise (n : Note) (l : List Note)
    (h : l.Pairwise (fun a b => b.updatedAt ≤ a.updatedAt)) :
    (insertByUpdated n l).Pairwise (fun a b => b.updatedAt ≤ a.updatedAt) := by
  induction l with
  | nil => simp [insertByUpdated]
  | cons m ms ih =>
    rcases List.pairwise_cons.mp h with ⟨h1, h2⟩
    by_cases hc : m.updatedAt ≤ n.updatedAt
    · rw [insertByUpdated, if_pos hc]
      refine List.pairwise_cons.mpr ⟨?_, h⟩
      intro x hx
      rcases List.mem_cons.mp hx with hx | hx
      · subst hx; exact hc
      · exact le_trans (h1 x hx) hc
    · rw [insertByUpdated, if_neg hc]
      refine List.pairwise_cons.mpr ⟨?_, ih h2⟩
      intro x hx
      have hx2 : x ∈ n :: ms :=
        (insertByUpdated_perm n ms).mem_iff.mp hx
      rcases List.mem_cons.mp hx2 with hx2 | hx2
      · subst hx2; exact le_of_lt (lt_of_not_le hc)
      · exact h1 x hx2

theorem sortByUpdatedDesc_pairwise (l : List Note) :
    (sortByUpdatedDesc l).Pairwise (fun a b => b.updatedAt ≤ a.updatedAt) := by
  induction l with
  | nil => simp [sortByUpdatedDesc]
  | cons n ns ih => exact insertByUpdated_pairwise n _ ih

theorem filter_insertByUpdated (n : Note) (l : List Note) (t : Int) :
    (insertByUpdated n l).filter (fun x => decide (x.updatedAt = t)) =
      if n.updatedAt = t then
        n :: l.filter (fun x => decide (x.updatedAt = t))
      else l.filter (fun x => decide (x.updatedAt = t)) := by
  induction l with
  | nil =>
    by_cases hn : n.updatedAt = t <;> simp [insertByUpdated, hn]
  | cons m ms ih =>
    by_cases hc : m.updatedAt ≤ n.updatedAt
    · rw [insertByUpdated, if_pos hc]
      by_cases hn : n.updatedAt = t <;> simp [List.filter, hn]
    · rw [insertByUpdated, if_neg hc]
      by_cases hn : n.updatedAt = t
      · have hm : ¬m.updatedAt = t := by
          intro hmt
          exact hc (by rw [hmt, hn])
        simp [List.filter, hm, ih, hn]
      · by_cases hm : m.updatedAt = t <;> simp [List.filter, hm, ih, hn]

theorem filter_sortByUpdatedDesc (l : List Note) (t : Int) :
    (sortByUpdatedDesc l).filter (fun x => decide (x.updatedAt = t)) =
      l.filter (fun x => decide (x.updatedAt = t)) := by
  induction l with
  | nil => simp [sortByUpdatedDesc]
  | cons n ns ih =>
    rw [sortByUpdatedDesc, filter_insertByUpdated]
    by_cases hn : n.updatedAt = t <;> simp [List.filter, hn, ih]

/-! ### Claim C1: push outcome classification -/

/-- C1. For every push of a single note by an authenticated caller, the
outcome is classified exactly by the table of the spec: absent record gives
created (stored, owner = caller); present record with a different owner
gives forbidden_owner_mismatch and no mutation; present record with the
same owner and a strictly greater incoming updatedAt gives updated (and the
note is stored); otherwise skipped_server_newer with the store unchanged. -/
theorem push_outcome_classification (caller fresh : String) (now : Int)
    (db : List Note) (raw : RawNote) (note : Note)
    (hnote : note = normalizeNoteInput raw (some caller) fresh now) :
    (pushOne caller now db raw fresh).2.id = note.id ∧
    (sqliteGet db note.id = none →
      (pushOne caller now db raw fresh).2.status = PushStatus.created ∧
      sqliteGet (pushOne caller now db raw fresh).1 note.id = some note ∧
      note.uid = some caller) ∧
    (∀ ex, sqliteGet db note.id = some ex → ex.uid ≠ some caller →
      (pushOne caller now db raw fresh).2.status =
        PushStatus.forbidden_owner_mismatch ∧
      (pushOne caller now db raw fresh).1 = db) ∧
    (∀ ex, sqliteGet db note.id = some ex → ex.uid = some caller →
      ex.updatedAt < note.updatedAt →
      (pushOne caller now db raw fresh).2.status = PushStatus.updated ∧
      sqliteGet (pushOne caller now db raw fresh).1 note.id = some note) ∧
    (∀ ex, sqliteGet db note.id = some ex → ex.uid = some caller →
      note.updatedAt ≤ ex.updatedAt →
      (pushOne caller now db raw fresh).2.status =
        PushStatus.skipped_server_newer ∧
      (pushOne caller now db raw fresh).1 = db) := by
  subst hnote
  refine ⟨?_, ?_, ?_, ?_, ?_⟩
  · cases hdb : sqliteGet db (normalizeNoteInput raw (some caller) fresh now).id
    · simp [pushOne, hdb]
    · simp only [pushOne, hdb]
      split
      · rfl
      · split <;> rfl
  · intro hdb
    refine ⟨by simp [pushOne, hdb], ?_, by simp [normalizeNoteInput]⟩
    simp only [pushOne, hdb]
    exact sqliteGet_upsert_self db _
  · intro ex hdb hex
    simp [pushOne, hdb, hex]
  · intro ex hdb hex hlt
    have hne : ¬(ex.uid ≠ some caller) := fun hc => hc hex
    refine ⟨by simp [pushOne, hdb, hex, hlt], ?_⟩
    simp only [pushOne, hdb]
    rw [if_neg hne, if_pos hlt]
    exact sqliteGet_upsert_self db _
  · intro ex hdb hex hle
    have hnlt : ¬ex.updatedAt <
        (normalizeNoteInput raw (some caller) fresh now).updatedAt :=
      not_lt.mpr hle
    simp [pushOne, hdb, hex, hnlt]

/-- Witness for C1: the created case of the classification at a concrete
push against the empty store. -/
theorem push_outcome_classification_witness :
    (pushOne "u1" 100 []
        ⟨some "n1", none, some "A", none, none, some 100, none, none,
          TagsInput.absent, false⟩ "f1").2.status = PushStatus.created ∧
    sqliteGet
        (pushOne "u1" 100 []
          ⟨some "n1", none, some "A", none, none, some 100, none, none,
            TagsInput.absent, false⟩ "f1").1
        (normalizeNoteInput
          ⟨some "n1", none, some "A", none, none, some 100, none, none,
            TagsInput.absent, false⟩ (some "u1") "f1" 100).id =
      some
        (normalizeNoteInput
          ⟨some "n1", none, some "A", none, none, some 100, none, none,
            TagsInput.absent, false⟩ (some "u1") "f1" 100) ∧
    (normalizeNoteInput
        ⟨some "n1", none, some "A", none, none, some 100, none, none,
          TagsInput.absent, false⟩ (some "u1") "f1" 100).uid = some "u1" :=
  (push_outcome_classification "u1" "f1" 100 []
      ⟨some "n1", none, some "A", none, none, some 100, none, none,
        TagsInput.absent, false⟩ _ rfl).2.1 rfl

/-! ### Claim C2: ownership immutability -/

/-- C2. A record whose stored owner is a cannot be altered by any finite
sequence of pushes issued by an authenticated caller b different from a and
aimed at that id: the store is unchanged after the whole sequence, every
push in it is answered forbidden_owner_mismatch, and the owner written by
normalization is always the authenticated caller, never the client-supplied
uid field. -/
theorem push_ownership_immutable (a b : String) (now : Int)
    (fresh : Nat → String) (db : List Note) (i : String) (ex : Note)
    (raws : List RawNote) (k : Nat)
    (hget : sqliteGet db i = some ex) (hex : ex.uid = some a) (hab : a ≠ b)
    (hids : ∀ r ∈ raws, r.id = some i) :
    (pushBatchAux b now fresh raws k db).1 = db ∧
    sqliteGet (pushBatchAux b now fresh raws k db).1 i = some ex ∧
    (∀ res ∈ (pushBatchAux b now fresh raws k db).2,
      res.status = PushStatus.forbidden_owner_mismatch) ∧
    (∀ (raw : RawNote) (f2 : String) (n2 : Int),
      (normalizeNoteInput raw (some b) f2 n2).uid = some b) := by
  have hnorm : ∀ (raw : RawNote) (f2 : String) (n2 : Int),
      (normalizeNoteInput raw (some b) f2 n2).uid = some b := by
    intro raw f2 n2
    simp [normalizeNoteInput]
  have huid : ex.uid ≠ some b := by
    rw [hex]
    intro hc
    exact hab (Option.some.inj hc)
  have main : ∀ (rs : List RawNote) (k : Nat),
      (∀ r ∈ rs, r.id = some i) →
      (pushBatchAux b now fresh rs k db).1 = db ∧
      (∀ res ∈ (pushBatchAux b now fresh rs k db).2,
        res.status = PushStatus.forbidden_owner_mismatch) := by
    intro rs
    induction rs with
    | nil => intro k _; simp [pushBatchAux]
    | cons r rest ih =>
      intro k hall
      have hr : r.id = some i := hall r (List.mem_cons_self r rest)
      have hnid : (normalizeNoteInput r (some b) (fresh k) now).id = i := by
        simp [normalizeNoteInput, hr]
      have hstep : pushOne b now db r (fresh k) =
          (db, ⟨i, PushStatus.forbidden_owner_mismatch⟩) := by
        simp [pushOne, hnid, hget, huid]
      have hrest := ih (k + 1) (fun x hx => hall x (List.mem_cons_of_mem r hx))
      refine ⟨?_, ?_⟩
      · simp only [pushBatchAux, hstep]
        exact hrest.1
      · simp only [pushBatchAux, hstep]
        intro res hres
        rcases List.mem_cons.mp hres with hres | hres
        · subst hres; rfl
        · exact hrest.2 res hres
  rcases main raws k hids with ⟨h1, h2⟩
  exact ⟨h1, by rw [h1]; exact hget, h2, hnorm⟩

/-- Witness for C2: a concrete record owned by u1 survives a two-push
sequence by u2 untouched, both pushes being forbidden. -/
theorem push_ownership_immutable_witness :
    (pushBatchAux "u2" 300 (fun _ => "g")
        [⟨some "n1", some "u2", some "C", none, none, some 200, none, none,
           TagsInput.absent, false⟩,
         ⟨some "n1", none, some "E", none, none, some 999, none, none,
           TagsInput.absent, true⟩] 0
        [⟨"n1", some "u1", "A", "", 0, 100, none, none, [], false⟩]).1 =
      [⟨"n1", some "u1", "A", "", 0, 100, none, none, [], false⟩] ∧
    sqliteGet
        (pushBatchAux "u2" 300 (fun _ => "g")
          [⟨some "n1", some "u2", some "C", none, none, some 200, none, none,
             TagsInput.absent, false⟩,
           ⟨some "n1", none, some "E", none, none, some 999, none, none,
             TagsInput.absent, true⟩] 0
          [⟨"n1", some "u1", "A", "", 0, 100, none, none, [], false⟩]).1 "n1" =
      some ⟨"n1", some "u1", "A", "", 0, 100, none, none, [], false⟩ ∧
    (∀ res ∈ (pushBatchAux "u2" 300 (fun _ => "g")
        [⟨some "n1", some "u2", some "C", none, none, some 200, none, none,
           TagsInput.absent, false⟩,
         ⟨some "n1", none, some "E", none, none, some 999, none, none,
           TagsInput.absent, true⟩] 0
        [⟨"n1", some "u1", "A", "", 0, 100, none, none, [], false⟩]).2,
      res.status = PushStatus.forbidden_owner_mismatch) ∧
    (∀ (raw : RawNote) (f2 : String) (n2 : Int),
      (normalizeNoteInput raw (some "u2") f2 n2).uid = some "u2") :=
  push_ownership_immutable "u1" "u2" 300 (fun _ => "g")
    [⟨"n1", some "u1", "A", "", 0, 100, none, none, [], false⟩] "n1"
    ⟨"n1", some "u1", "A", "", 0, 100, none, none, [], false⟩ _ 0
    (by decide) rfl (by decide) (by decide)

/-! ### Claim C3 (corrected): durable-tier failure handling of the fan-out
upsert -/

/-- Counterexample to C3 as stated: with the file-mirror write failing
(fsOk = false) and the SQLite write succeeding, dualAdapter.upsert still
resolves successfully — the file adapter caught the error itself — and the
mirror tier is left without the note.  A durable-tier (Mirror) failure is
therefore silent, contradicting the claim that either durable-tier failure
fails the whole operation. -/
theorem dualUpsert_mirror_failure_reports_success :
    (dualUpsert true false true ⟨[], [], none⟩
        ⟨"n1", some "u1", "A", "", 0, 100, none, none, [], false⟩).1 = true ∧
    (dualUpsert true false true ⟨[], [], none⟩
        ⟨"n1", some "u1", "A", "", 0, 100, none, none, [], false⟩).2.files =
      [] ∧
    (dualUpsert true false true ⟨[], [], none⟩
        ⟨"n1", some "u1", "A", "", 0, 100, none, none, [], false⟩).2.db =
      [⟨"n1", some "u1", "A", "", 0, 100, none, none, [], false⟩] := by
  exact ⟨rfl, rfl, rfl⟩

/-- C3 amended: the fan-out upsert reports success exactly when the Primary
(SQLite) write succeeds; a Mirror (file) write failure is caught inside the
file adapter and only logged, and a Remote write failure is likewise
swallowed, so neither affects the reported outcome. -/
theorem dualUpsert_success_iff_primary_ok (dbOk fsOk remoteOk : Bool)
    (st : DualSt) (n : Note) :
    (dualUpsert dbOk fsOk remoteOk st n).1 = dbOk := by
  cases dbOk with
  | false => simp [dualUpsert]
  | true =>
    cases hr : st.remote with
    | none => simp [dualUpsert, hr]
    | some r => cases remoteOk <;> simp [dualUpsert, hr]

/-! ### Claim C10: push with a missing or non-array notes field -/

/-- C10. When the notes field of the push body is absent or not an array,
the push endpoint treats the request as an empty batch: it answers ok with
an empty results list and the store is left unchanged. -/
theorem push_non_array_notes_empty_batch (caller : String) (now : Int)
    (fresh : Nat → String) (body : NotesField) (db : List Note)
    (h : body = NotesField.nonArray ∨ body = NotesField.absent) :
    pushRoute caller now fresh body db = (db, ⟨true, []⟩) := by
  rcases h with h | h <;> subst h <;>
    simp [pushRoute, pushBatch, pushBatchAux, extractNotes]

/-- Witness for C10 at a concrete non-array body. -/
theorem push_non_array_notes_empty_batch_witness :
    pushRoute "u1" 100 (fun _ => "f") NotesField.nonArray
        [⟨"n1", some "u1", "A", "", 0, 100, none, none, [], false⟩] =
      ([⟨"n1", some "u1", "A", "", 0, 100, none, none, [], false⟩],
        ⟨true, []⟩) :=
  push_non_array_notes_empty_batch "u1" 100 (fun _ => "f")
    NotesField.nonArray
    [⟨"n1", some "u1", "A", "", 0, 100, none, none, [], false⟩]
    (Or.inl rfl)

/-! ### Claim C6 (corrected): per-note outcomes and batch abortion -/

theorem pushBatchAux_length (caller : String) (now : Int)
    (fresh : Nat → String) (raws : List RawNote) :
    ∀ (k : Nat) (db : List Note),
      (pushBatchAux caller now fresh raws k db).2.length = raws.length := by
  induction raws with
  | nil => intro k db; simp [pushBatchAux]
  | cons r rest ih =>
    intro k db
    simp [pushBatchAux, ih]

theorem pushOne_result_id (caller : String) (now : Int) (db : List Note)
    (raw : RawNote) (fresh : String) :
    (pushOne caller now db raw fresh).2.id =
      (normalizeNoteInput raw (some caller) fresh now).id := by
  cases hdb : sqliteGet db (normalizeNoteInput raw (some caller) fresh now).id
  · simp [pushOne, hdb]
  · simp only [pushOne, hdb]
    split
    · rfl
    · split <;> rfl

theorem pushBatchAux_ids (caller : String) (now : Int)
    (fresh : Nat → String) (raws : List RawNote) :
    ∀ (k : Nat) (db : List Note) (j : Nat),
      ((pushBatchAux caller now fresh raws k db).2[j]?).map
          (fun r => r.id) =
        (raws[j]?).map (fun raw =>
          (normalizeNoteInput raw (some caller) (fresh (k + j)) now).id) := by
  induction raws with
  | nil => intro k db j; simp [pushBatchAux]
  | cons r rest ih =>
    intro k db j
    cases j with
    | zero => simp [pushBatchAux, pushOne_result_id]
    | succ j2 =>
      have harith : k + (j2 + 1) = (k + 1) + j2 := by omega
      simp only [pushBatchAux, List.getElem?_cons_succ, harith]
      exact ih (k + 1) _ j2

theorem pushBatchE_no_error (caller : String) (now : Int)
    (fresh : Nat → String) :
    ∀ (inputs : List (RawNote × Bool)) (k : Nat) (db : List Note),
      (∀ p ∈ inputs, p.2 = false) →
      pushBatchE caller now fresh inputs k db =
        Except.ok (pushBatchAux caller now fresh (inputs.map Prod.fst) k db)
    := by
  intro inputs
  induction inputs with
  | nil => intro k db _; simp [pushBatchE, pushBatchAux]
  | cons p rest ih =>
    intro k db h
    have hp : p.2 = false := h p (List.mem_cons_self p rest)
    have hrest : ∀ q ∈ rest, q.2 = false :=
      fun q hq => h q (List.mem_cons_of_mem p hq)
    cases p with
    | mk raw bad =>
      simp only at hp
      subst hp
      simp only [pushBatchE, Bool.false_eq_true, if_false, List.map_cons,
        pushBatchAux]
      rw [ih (k + 1) _ hrest]

/-- Counterexample to C6 as stated: a storage error thrown while the first
note of a two-note batch is processed makes the whole request fail with
server_error — the second note is never processed and the response carries
no per-note outcome at all, so the failure of one note does abort the rest
of the batch. -/
theorem push_batch_aborted_by_storage_error :
    pushBatchE "u1" 100 (fun _ => "f")
        [(⟨some "n1", none, some "A", none, none, some 100, none, none,
            TagsInput.absent, false⟩, true),
         (⟨some "n2", none, some "B", none, none, some 100, none, none,
            TagsInput.absent, false⟩, false)] 0 [] =
      Except.error "server_error" := rfl

/-- C6 amended: when no storage operation throws while the batch is
processed, push answers one outcome per submitted note, in submission
order (the j-th outcome carries the id of the j-th normalized note); but a
storage error thrown while any note is processed aborts the entire batch
with a server error and no per-note outcomes. -/
theorem push_batch_results_when_no_storage_error (caller : String)
    (now : Int) (fresh : Nat → String) (inputs : List (RawNote × Bool))
    (k : Nat) (db : List Note) (h : ∀ p ∈ inputs, p.2 = false) :
    pushBatchE caller now fresh inputs k db =
      Except.ok (pushBatchAux caller now fresh (inputs.map Prod.fst) k db) ∧
    (pushBatchAux caller now fresh (inputs.map Prod.fst) k db).2.length =
      inputs.length ∧
    ∀ j : Nat,
      ((pushBatchAux caller now fresh (inputs.map Prod.fst) k db).2[j]?).map
          (fun r => r.id) =
        ((inputs.map Prod.fst)[j]?).map (fun raw =>
          (normalizeNoteInput raw (some caller) (fresh (k + j)) now).id) := by
  refine ⟨pushBatchE_no_error caller now fresh inputs k db h, ?_,
    pushBatchAux_ids caller now fresh _ k db⟩
  rw [pushBatchAux_length, List.length_map]

/-- Witness for C6 amended: a concrete two-note batch with no storage
errors resolves and yields exactly two outcomes. -/
theorem push_batch_results_when_no_storage_error_witness :
    pushBatchE "u1" 100 (fun _ => "f")
        [(⟨some "n1", none, some "A", none, none, some 100, none, none,
            TagsInput.absent, false⟩, false),
         (⟨some "n2", none, some "B", none, none, some 100, none, none,
            TagsInput.absent, false⟩, false)] 0 [] =
      Except.ok (pushBatchAux "u1" 100 (fun _ => "f")
        [⟨some "n1", none, some "A", none, none, some 100, none, none,
           TagsInput.absent, false⟩,
         ⟨some "n2", none, some "B", none, none, some 100, none, none,
           TagsInput.absent, false⟩] 0 []) ∧
    (pushBatchAux "u1" 100 (fun _ => "f")
        [⟨some "n1", none, some "A", none, none, some 100, none, none,
           TagsInput.absent, false⟩,
         ⟨some "n2", none, some "B", none, none, some 100, none, none,
           TagsInput.absent, false⟩] 0 []).2.length = 2 := by
  have h := push_batch_results_when_no_storage_error "u1" 100 (fun _ => "f")
    [(⟨some "n1", none, some "A", none, none, some 100, none, none,
        TagsInput.absent, false⟩, false),
     (⟨some "n2", none, some "B", none, none, some 100, none, none,
        TagsInput.absent, false⟩, false)] 0 [] (by decide)
  exact ⟨h.1, h.2.1⟩

/-! ### Claim C8 (corrected): last-write-wins order independence -/

theorem normalizeNoteInput_id_of_some (raw : RawNote) (u : Option String)
    (fresh : String) (now : Int) (i : String) (h : raw.id = some i) :
    (normalizeNoteInput raw u fresh now).id = i := by
  simp [normalizeNoteInput, h]

theorem normalizeNoteInput_uid_caller (raw : RawNote) (caller fresh : String)
    (now : Int) :
    (normalizeNoteInput raw (some caller) fresh now).uid = some caller := by
  simp [normalizeNoteInput]

theorem pushOne_state_created (caller : String) (now : Int) (db : List Note)
    (raw : RawNote) (fresh : String)
    (h : sqliteGet db (normalizeNoteInput raw (some caller) fresh now).id =
      none) :
    (pushOne caller now db raw fresh).1 =
      sqliteUpsert db (normalizeNoteInput raw (some caller) fresh now) := by
  simp [pushOne, h]

theorem pushOne_state_same_owner (caller : String) (now : Int)
    (db : List Note) (raw : RawNote) (fresh : String) (ex : Note)
    (hget : sqliteGet db (normalizeNoteInput raw (some caller) fresh now).id =
      some ex)
    (hex : ex.uid = some caller) :
    (pushOne caller now db raw fresh).1 =
      if ex.updatedAt <
          (normalizeNoteInput raw (some caller) fresh now).updatedAt then
        sqliteUpsert db (normalizeNoteInput raw (some caller) fresh now)
      else db := by
  have hne : ¬(ex.uid ≠ some caller) := fun hc => hc hex
  simp only [pushOne, hget]
  rw [if_neg hne]
  split <;> rfl

/-- Counterexample to C8 as stated: two notes with the same id, the same
owner and equal updatedAt but different titles yield different final stored
records depending on the push order, because the first push wins each time
— pushing them in either order does not yield the same final record. -/
theorem push_equal_updatedAt_order_dependent :
    sqliteGet
        (pushBatch "u1" 0 (fun _ => "f")
          [⟨some "n1", none, some "A", none, none, some 100, none, none,
             TagsInput.absent, false⟩,
           ⟨some "n1", none, some "B", none, none, some 100, none, none,
             TagsInput.absent, false⟩] []).1 "n1" ≠
      sqliteGet
        (pushBatch "u1" 0 (fun _ => "f")
          [⟨some "n1", none, some "B", none, none, some 100, none, none,
             TagsInput.absent, false⟩,
           ⟨some "n1", none, some "A", none, none, some 100, none, none,
             TagsInput.absent, false⟩] []).1 "n1" := by
  decide

/-- C8 amended: starting from a server state with no record for the shared
id, pushing two same-owner notes in either order yields the same final
stored record provided their updatedAt values differ — namely the one with
the strictly larger updatedAt; when the values are equal, the note pushed
first wins within each order, so the two orders need not agree. -/
theorem push_order_independent_distinct_updatedAt (caller f1 f2 : String)
    (now : Int) (db : List Note) (i : String) (r1 r2 : RawNote)
    (h0 : sqliteGet db i = none) (hid1 : r1.id = some i)
    (hid2 : r2.id = some i)
    (hne : (normalizeNoteInput r1 (some caller) f1 now).updatedAt ≠
      (normalizeNoteInput r2 (some caller) f2 now).updatedAt) :
    sqliteGet (pushOne caller now (pushOne caller now db r1 f1).1 r2 f2).1
        i =
      sqliteGet (pushOne caller now (pushOne caller now db r2 f2).1 r1 f1).1
        i ∧
    sqliteGet (pushOne caller now (pushOne caller now db r1 f1).1 r2 f2).1
        i =
      some (if (normalizeNoteInput r1 (some caller) f1 now).updatedAt <
          (normalizeNoteInput r2 (some caller) f2 now).updatedAt then
        normalizeNoteInput r2 (some caller) f2 now
      else normalizeNoteInput r1 (some caller) f1 now) := by
  set n1 := normalizeNoteInput r1 (some caller) f1 now with hn1def
  set n2 := normalizeNoteInput r2 (some caller) f2 now with hn2def
  have hid1n : n1.id = i := normalizeNoteInput_id_of_some r1 _ f1 now i hid1
  have hid2n : n2.id = i := normalizeNoteInput_id_of_some r2 _ f2 now i hid2
  have huid1 : n1.uid = some caller :=
    normalizeNoteInput_uid_caller r1 caller f1 now
  have huid2 : n2.uid = some caller :=
    normalizeNoteInput_uid_caller r2 caller f2 now
  have hA1 : (pushOne caller now db r1 f1).1 = sqliteUpsert db n1 :=
    pushOne_state_created caller now db r1 f1 (by rw [← hn1def, hid1n]; exact h0)
  have hB1 : (pushOne caller now db r2 f2).1 = sqliteUpsert db n2 :=
    pushOne_state_created caller now db r2 f2 (by rw [← hn2def, hid2n]; exact h0)
  have hgetA : sqliteGet (sqliteUpsert db n1) n2.id = some n1 := by
    rw [hid2n, ← hid1n]
    exact sqliteGet_upsert_self db n1
  have hgetB : sqliteGet (sqliteUpsert db n2) n1.id = some n2 := by
    rw [hid1n, ← hid2n]
    exact sqliteGet_upsert_self db n2
  have hA2 : (pushOne caller now (sqliteUpsert db n1) r2 f2).1 =
      if n1.updatedAt < n2.updatedAt then
        sqliteUpsert (sqliteUpsert db n1) n2
      else sqliteUpsert db n1 :=
    pushOne_state_same_owner caller now (sqliteUpsert db n1) r2 f2 n1
      (by rw [← hn2def]; exact hgetA) huid1
  have hB2 : (pushOne caller now (sqliteUpsert db n2) r1 f1).1 =
      if n2.updatedAt < n1.updatedAt then
        sqliteUpsert (sqliteUpsert db n2) n1
      else sqliteUpsert db n2 :=
    pushOne_state_same_owner caller now (sqliteUpsert db n2) r1 f1 n2
      (by rw [← hn1def]; exact hgetB) huid2
  rw [hA1, hB1, hA2, hB2]
  by_cases hcmp : n1.updatedAt < n2.updatedAt
  · have hnotrev : ¬n2.updatedAt < n1.updatedAt := not_lt.mpr (le_of_lt hcmp)
    rw [if_pos hcmp, if_neg hnotrev, if_pos hcmp]
    constructor
    · rw [← hid2n, sqliteGet_upsert_self (sqliteUpsert db n1) n2,
        sqliteGet_upsert_self db n2]
    · rw [← hid2n]
      exact sqliteGet_upsert_self (sqliteUpsert db n1) n2
  · have hrev : n2.updatedAt < n1.updatedAt :=
      lt_of_le_of_ne (not_lt.mp hcmp) (fun hc => hne hc.symm)
    rw [if_neg hcmp, if_pos hrev, if_neg hcmp]
    constructor
    · rw [← hid1n, sqliteGet_upsert_self db n1,
        sqliteGet_upsert_self (sqliteUpsert db n2) n1]
    · rw [← hid1n]
      exact sqliteGet_upsert_self db n1

/-- Witness for C8 amended: pushing updatedAt 100 and updatedAt 200 notes in
either order leaves the updatedAt 200 note stored. -/
theorem push_order_independent_distinct_updatedAt_witness :
    sqliteGet
        (pushOne "u1" 0
          (pushOne "u1" 0 []
            ⟨some "n1", none, some "A", none, none, some 100, none, none,
              TagsInput.absent, false⟩ "f").1
          ⟨some "n1", none, some "D", none, none, some 200, none, none,
            TagsInput.absent, false⟩ "g").1 "n1" =
      sqliteGet
        (pushOne "u1" 0
          (pushOne "u1" 0 []
            ⟨some "n1", none, some "D", none, none, some 200, none, none,
              TagsInput.absent, false⟩ "g").1
          ⟨some "n1", none, some "A", none, none, some 100, none, none,
            TagsInput.absent, false⟩ "f").1 "n1" ∧
    sqliteGet
        (pushOne "u1" 0
          (pushOne "u1" 0 []
            ⟨some "n1", none, some "A", none, none, some 100, none, none,
              TagsInput.absent, false⟩ "f").1
          ⟨some "n1", none, some "D", none, none, some 200, none, none,
            TagsInput.absent, false⟩ "g").1 "n1" =
      some (if (normalizeNoteInput
            ⟨some "n1", none, some "A", none, none, some 100, none, none,
              TagsInput.absent, false⟩ (some "u1") "f" 0).updatedAt <
          (normalizeNoteInput
            ⟨some "n1", none, some "D", none, none, some 200, none, none,
              TagsInput.absent, false⟩ (some "u1") "g" 0).updatedAt then
        normalizeNoteInput
          ⟨some "n1", none, some "D", none, none, some 200, none, none,
            TagsInput.absent, false⟩ (some "u1") "g" 0
      else
        normalizeNoteInput
          ⟨some "n1", none, some "A", none, none, some 100, none, none,
            TagsInput.absent, false⟩ (some "u1") "f" 0) :=
  push_order_independent_distinct_updatedAt "u1" "f" "g" 0 [] "n1"
    ⟨some "n1", none, some "A", none, none, some 100, none, none,
      TagsInput.absent, false⟩
    ⟨some "n1", none, some "D", none, none, some 200, none, none,
      TagsInput.absent, false⟩
    rfl rfl rfl (by decide)

/-! ### Claim C5 (corrected): pull semantics -/

theorem mem_pullNotes_iff_sqlWhere (caller : String) (ls : Int)
    (db : List Note) (n : Note) :
    n ∈ pullNotes caller ls db ↔
      n ∈ db ∧ sqlWhere n (pullFilters caller ls) = true := by
  unfold pullNotes sqliteFind
  rw [mem_sortByUpdatedDesc]
  exact List.mem_filter

theorem sqlWhere_pullFilters (caller : String) (hc : caller ≠ "") (ls : Int)
    (n : Note) :
    sqlWhere n (pullFilters caller ls) = true ↔
      (n.uid = some caller ∧ (ls ≠ 0 → ls < n.updatedAt)) := by
  by_cases hls : ls = 0 <;> simp [sqlWhere, pullFilters, hc, hls]

/-- Counterexample to C5 as stated: a tombstoned record with updatedAt = 0
owned by the caller is returned by a pull with lastSync = 0, although its
updatedAt is not strictly greater than lastSync — the updatedAt filter is
dropped when lastSync is 0 (a falsy value), so a pull with lastSync ≥ T
does not always exclude a record with updatedAt = T. -/
theorem pull_includes_note_at_lastSync_zero :
    (⟨"n1", some "u1", "A", "", 0, 0, none, none, [], true⟩ : Note) ∈
      pullNotes "u1" 0
        [⟨"n1", some "u1", "A", "", 0, 0, none, none, [], true⟩] ∧
    ¬((0 : Int) <
      (⟨"n1", some "u1", "A", "", 0, 0, none, none, [], true⟩ :
        Note).updatedAt) := by
  decide

/-- C5 amended: for a caller with a nonempty uid, pull returns exactly the
notes owned by that caller, tombstoned ones included, whose updatedAt is
strictly greater than lastSync whenever lastSync is nonzero; when lastSync
is 0 the updatedAt condition is skipped and every note owned by the caller
is returned.  In particular a tombstoned record with updatedAt = T satisfies
the original claim whenever T is positive: a pull with lastSync below T
includes it and a pull with lastSync at least T excludes it. -/
theorem pull_membership_characterization (caller : String) (hc : caller ≠ "")
    (ls : Int) (db : List Note) :
    (∀ n : Note, n ∈ pullNotes caller ls db ↔
      (n ∈ db ∧ n.uid = some caller ∧ (ls ≠ 0 → ls < n.updatedAt))) ∧
    (∀ n ∈ db, n.isDeleted = true → n.uid = some caller →
      0 < n.updatedAt →
      ((ls < n.updatedAt → n ∈ pullNotes caller ls db) ∧
       (n.updatedAt ≤ ls → n ∉ pullNotes caller ls db))) := by
  have hiff : ∀ n : Note, n ∈ pullNotes caller ls db ↔
      (n ∈ db ∧ n.uid = some caller ∧ (ls ≠ 0 → ls < n.updatedAt)) := by
    intro n
    rw [mem_pullNotes_iff_sqlWhere, sqlWhere_pullFilters caller hc ls n]
  refine ⟨hiff, ?_⟩
  intro n hn hdel huid hupd
  constructor
  · intro hlt
    exact (hiff n).mpr ⟨hn, huid, fun _ => hlt⟩
  · intro hle hmem2
    have h3 := ((hiff n).mp hmem2).2.2
    have hne0 : ls ≠ 0 := by omega
    have := h3 hne0
    omega

/-- Witness for C5 amended: with lastSync 5 the characterization excludes a
note with updatedAt 3 and includes one with updatedAt 9. -/
theorem pull_membership_characterization_witness :
    ((⟨"a", some "u1", "", "", 0, 9, none, none, [], true⟩ : Note) ∈
      pullNotes "u1" 5
        [⟨"a", some "u1", "", "", 0, 9, none, none, [], true⟩,
         ⟨"b", some "u1", "", "", 0, 3, none, none, [], false⟩] ↔
      ((⟨"a", some "u1", "", "", 0, 9, none, none, [], true⟩ : Note) ∈
        [⟨"a", some "u1", "", "", 0, 9, none, none, [], true⟩,
         ⟨"b", some "u1", "", "", 0, 3, none, none, [], false⟩] ∧
       (⟨"a", some "u1", "", "", 0, 9, none, none, [], true⟩ :
         Note).uid = some "u1" ∧
       ((5 : Int) ≠ 0 → (5 : Int) <
         (⟨"a", some "u1", "", "", 0, 9, none, none, [], true⟩ :
           Note).updatedAt))) :=
  (pull_membership_characterization "u1" (by decide) 5
    [⟨"a", some "u1", "", "", 0, 9, none, none, [], true⟩,
     ⟨"b", some "u1", "", "", 0, 3, none, none, [], false⟩]).1
    ⟨"a", some "u1", "", "", 0, 9, none, none, [], true⟩

/-! ### Claim C4: merge de-duplication and local preference -/

theorem mergeNotes_ids_nodup (l r : List Note)
    (hl : (l.map (fun n => n.id)).Nodup)
    (hr : (r.map (fun n => n.id)).Nodup) :
    ((mergeNotes l r).map (fun n => n.id)).Nodup := by
  simp only [mergeNotes]
  rw [List.map_append, List.nodup_append]
  refine ⟨hl, ?_, ?_⟩
  · exact List.Nodup.sublist
      (List.Sublist.map _ (List.filter_sublist r)) hr
  · intro a ha hb
    rcases List.mem_map.mp hb with ⟨x, hx, hxa⟩
    rcases List.mem_filter.mp hx with ⟨_, hpx⟩
    have hnot : x.id ∉ l.map (fun n => n.id) := of_decide_eq_true hpx
    exact hnot (hxa ▸ ha)

/-- C4. The merged result of the Reconciler contains at most one record per
id (given that each tier is itself duplicate-free, as its keying
guarantees), every local record survives into the merged result, and every
merged record either is a local record or is a remote record whose id does
not occur locally — a remote copy never replaces a local one. -/
theorem find_merge_dedup_local_preference (l r : List Note)
    (hl : (l.map (fun n => n.id)).Nodup)
    (hr : (r.map (fun n => n.id)).Nodup) :
    ((dualFindMerge l r).map (fun n => n.id)).Nodup ∧
    (∀ n ∈ l, n ∈ dualFindMerge l r) ∧
    (∀ n ∈ dualFindMerge l r,
      n ∈ l ∨ (n ∈ r ∧ n.id ∉ l.map (fun m => m.id))) := by
  have hperm : (dualFindMerge l r).Perm (mergeNotes l r) :=
    sortByUpdatedDesc_perm _
  refine ⟨?_, ?_, ?_⟩
  · exact (hperm.map _).nodup_iff.mpr (mergeNotes_ids_nodup l r hl hr)
  · intro n hn
    refine hperm.mem_iff.mpr ?_
    simp only [mergeNotes]
    exact List.mem_append_left _ hn
  · intro n hn
    have hn2 : n ∈ mergeNotes l r := hperm.mem_iff.mp hn
    simp only [mergeNotes] at hn2
    rcases List.mem_append.mp hn2 with hn2 | hn2
    · exact Or.inl hn2
    · rcases List.mem_filter.mp hn2 with ⟨hnr, hp⟩
      exact Or.inr ⟨hnr, of_decide_eq_true hp⟩

/-- Witness for C4: a concrete merge of one local and two remote records
(one sharing the local id) has duplicate-free ids and keeps the local
copy. -/
theorem find_merge_dedup_local_preference_witness :
    ((dualFindMerge
        [⟨"a", some "u1", "local", "", 0, 5, none, none, [], false⟩]
        [⟨"a", some "u1", "remote", "", 0, 9, none, none, [], false⟩,
         ⟨"c", some "u1", "other", "", 0, 1, none, none, [], false⟩]).map
      (fun n => n.id)).Nodup ∧
    (⟨"a", some "u1", "local", "", 0, 5, none, none, [], false⟩ : Note) ∈
      dualFindMerge
        [⟨"a", some "u1", "local", "", 0, 5, none, none, [], false⟩]
        [⟨"a", some "u1", "remote", "", 0, 9, none, none, [], false⟩,
         ⟨"c", some "u1", "other", "", 0, 1, none, none, [], false⟩] := by
  have h := find_merge_dedup_local_preference
    [⟨"a", some "u1", "local", "", 0, 5, none, none, [], false⟩]
    [⟨"a", some "u1", "remote", "", 0, 9, none, none, [], false⟩,
     ⟨"c", some "u1", "other", "", 0, 1, none, none, [], false⟩]
    (by decide) (by decide)
  exact ⟨h.1, h.2.1 _ (by decide)⟩

/-! ### Claim C7 (corrected): order of the merged result -/

/-- Counterexample to C7 as stated: two records with equal updatedAt come
out of the merge in their merge order, not ordered by id ascending — the
comparator only subtracts updatedAt values and applies no id tie-break, so
the record with id b stays before the record with id a. -/
theorem merge_equal_updatedAt_not_id_sorted :
    dualFindMerge
        [⟨"b", some "u1", "", "", 0, 100, none, none, [], false⟩,
         ⟨"a", some "u1", "", "", 0, 100, none, none, [], false⟩] [] =
      [⟨"b", some "u1", "", "", 0, 100, none, none, [], false⟩,
       ⟨"a", some "u1", "", "", 0, 100, none, none, [], false⟩] ∧
    ("a" : String) < "b" := by
  constructor
  · rfl
  · rw [String.lt_iff_toList_lt]
    decide

/-- C7 amended: the merged result is sorted by updatedAt descending and is
a permutation of the merged set; records with equal updatedAt keep their
merge order (the sort is stable: every equal-updatedAt slice of the output
equals that slice of the merge input), with no id tie-break, so the order
of ties depends on the merge order and not only on the record set. -/
theorem merge_sorted_desc_stable (l r : List Note) :
    (dualFindMerge l r).Pairwise (fun a b => b.updatedAt ≤ a.updatedAt) ∧
    (dualFindMerge l r).Perm (mergeNotes l r) ∧
    (∀ t : Int,
      (dualFindMerge l r).filter (fun x => decide (x.updatedAt = t)) =
        (mergeNotes l r).filter (fun x => decide (x.updatedAt = t))) :=
  ⟨sortByUpdatedDesc_pairwise _, sortByUpdatedDesc_perm _,
    fun t => filter_sortByUpdatedDesc _ t⟩

/-! ### Claim C9: conjunctive filter semantics of matchesFilters -/

theorem deletedReject_false_iff (inc : Bool) (note : Note) :
    (!inc && note.isDeleted) = false ↔
      (inc = false → note.isDeleted = false) := by
  cases inc <;> cases h : note.isDeleted <;> simp [h]

theorem uidReject_false_iff (note : Note) (o : Option String) :
    uidReject note o = false ↔
      (∀ u, o = some u → u ≠ "" → note.uid = some u) := by
  cases o with
  | none => simp [uidReject]
  | some u =>
    by_cases hu : u = "" <;> simp [uidReject, hu]

theorem qReject_false_iff (note : Note) (o : Option String) :
    qReject note o = false ↔
      (∀ s, o = some s → s ≠ "" →
        (strIncludes note.title.toLower s.toLower = true ∨
         strIncludes note.body.toLower s.toLower = true)) := by
  cases o with
  | none => simp [qReject]
  | some s =>
    by_cases hs : s = "" <;>
      simp [qReject, hs, or_iff_not_imp_left, Bool.not_eq_true]

theorem updatedAfterReject_false_iff (note : Note) (o : Option Int) :
    updatedAfterReject note o = false ↔
      (∀ v, o = some v → v ≠ 0 → v < note.updatedAt) := by
  cases o with
  | none => simp [updatedAfterReject]
  | some v =>
    by_cases hv : v = 0 <;> simp [updatedAfterReject, hv]

theorem dateFromReject_false_iff (note : Note) (o : Option Int) :
    dateFromReject note o = false ↔
      (∀ v, o = some v → v ≠ 0 →
        ∃ d, note.date = some d ∧ d ≠ 0 ∧ v ≤ d) := by
  cases o with
  | none => simp [dateFromReject]
  | some v =>
    by_cases hv : v = 0
    · simp [dateFromReject, hv]
    · cases hd : note.date with
      | none => simp [dateFromReject, hv, hd]
      | some d =>
        by_cases hd0 : d = 0 <;> simp [dateFromReject, hv, hd, hd0]

theorem dateToReject_false_iff (note : Note) (o : Option Int) :
    dateToReject note o = false ↔
      (∀ v, o = some v → v ≠ 0 →
        ∃ d, note.date = some d ∧ d ≠ 0 ∧ d ≤ v) := by
  cases o with
  | none => simp [dateToReject]
  | some v =>
    by_cases hv : v = 0
    · simp [dateToReject, hv]
    · cases hd : note.date with
      | none => simp [dateToReject, hv, hd]
      | some d =>
        by_cases hd0 : d = 0 <;> simp [dateToReject, hv, hd, hd0]

theorem timeReject_false_iff (note : Note) (o : Option String) :
    timeReject note o = false ↔
      (∀ t, o = some t → t ≠ "" → note.time = some t) := by
  cases o with
  | none => simp [timeReject]
  | some t =>
    by_cases ht : t = "" <;> simp [timeReject, ht]

theorem tagsReject_false_iff (note : Note) (o : Option (List String)) :
    tagsReject note o = false ↔
      (∀ l, o = some l → l ≠ [] → ∀ t ∈ l, t ∈ note.tags) := by
  cases o with
  | none => simp [tagsReject]
  | some l =>
    by_cases hl : l = [] <;> simp [tagsReject, hl, List.all_eq_true]

/-- C9. A note passes matchesFilters exactly when it satisfies every
supplied predicate conjunctively: not tombstoned unless includeDeleted,
owner match, case-insensitive substring of title or body for the text
query, strict updatedAt bound, truthy inclusive date bounds, exact time
match, and containment of every requested tag (AND semantics). -/
theorem matchesFilters_conjunctive (note : Note) (f : Filters) :
    matchesFilters note f = true ↔
      ((f.includeDeleted = false → note.isDeleted = false) ∧
       (∀ u, f.uid = some u → u ≠ "" → note.uid = some u) ∧
       (∀ s, f.q = some s → s ≠ "" →
         (strIncludes note.title.toLower s.toLower = true ∨
          strIncludes note.body.toLower s.toLower = true)) ∧
       (∀ v, f.updatedAfter = some v → v ≠ 0 → v < note.updatedAt) ∧
       (∀ v, f.dateFrom = some v → v ≠ 0 →
         ∃ d, note.date = some d ∧ d ≠ 0 ∧ v ≤ d) ∧
       (∀ v, f.dateTo = some v → v ≠ 0 →
         ∃ d, note.date = some d ∧ d ≠ 0 ∧ d ≤ v) ∧
       (∀ t, f.time = some t → t ≠ "" → note.time = some t) ∧
       (∀ l, f.tags = some l → l ≠ [] → ∀ t ∈ l, t ∈ note.tags)) := by
  unfold matchesFilters
  simp only [Bool.and_eq_true, Bool.not_eq_true']
  rw [deletedReject_false_iff, uidReject_false_iff, qReject_false_iff,
    updatedAfterReject_false_iff, dateFromReject_false_iff,
    dateToReject_false_iff, timeReject_false_iff, tagsReject_false_iff]
  simp [and_assoc]

/-- Witness for C9: reading the owner predicate off a concrete note that
passes a concrete filter via the characterization. -/
theorem matchesFilters_conjunctive_witness :
    (⟨"n1", some "u1", "hello", "", 0, 10, none, none, ["x", "y"],
      false⟩ : Note).uid = some "u1" :=
  ((matchesFilters_conjunctive
      ⟨"n1", some "u1", "hello", "", 0, 10, none, none, ["x", "y"], false⟩
      ⟨false, some "u1", none, some 5, none, none, none,
        some ["x"]⟩).mp rfl).2.1 "u1" rfl (by decide)
